import Mathlib

/-!
Verification development for the `translator` repository
(`src/translate/src/translator.py` and `src/translate/src/config_manager.py`).

The Python code is shallowly embedded: Python strings are Lean `String`s
(lists of characters), `str.split`, `str.strip` and `str.join` are modelled
directly, every external LLM call is a parameter of type
`String → Except Unit String` (an `.error` value standing for a raised
exception), and the orchestrator `translate_content` additionally records
the orchestrator-level model calls it performs, in order, so that
call-count properties can be stated.
-/

set_option autoImplicit false

namespace Translator

/-- Whitespace predicate used to model Python `str.strip` / `str.lstrip`
(the ASCII whitespace characters). -/
def pyIsSpace (c : Char) : Bool :=
  c = ' ' || c = '\t' || c = '\n' || c = '\r' || c = '\u000b' || c = '\u000c'

/-- Model of Python `str.strip()` on a character list: drop leading and
trailing whitespace. -/
def pyStripL (l : List Char) : List Char :=
  ((l.dropWhile pyIsSpace).reverse.dropWhile pyIsSpace).reverse

/-- Model of Python `str.strip()`. -/
def pyStrip (s : String) : String :=
  String.mk (pyStripL s.data)

/-- Helper for `splitNl`: returns the first line and the remaining lines. -/
def splitNlAux : List Char → List Char × List (List Char)
  | [] => ([], [])
  | c :: rest =>
    let p := splitNlAux rest
    if c = '\n' then ([], p.1 :: p.2) else (c :: p.1, p.2)

/-- Model of Python `s.split('\n')` on a character list. -/
def splitNl (l : List Char) : List (List Char) :=
  (splitNlAux l).1 :: (splitNlAux l).2

/-- Helper for `splitBlank`: returns the first blank-line-separated unit and
the remaining units. -/
def splitBlankAux : List Char → List Char × List (List Char)
  | [] => ([], [])
  | [c] => ([c], [])
  | c :: d :: rest =>
    if c = '\n' ∧ d = '\n' then
      let p := splitBlankAux rest
      ([], p.1 :: p.2)
    else
      let p := splitBlankAux (d :: rest)
      (c :: p.1, p.2)

/-- Model of Python `s.split('\n\n')` on a character list: the
blank-line-separated units of a string. -/
def splitBlank (l : List Char) : List (List Char) :=
  (splitBlankAux l).1 :: (splitBlankAux l).2

/-- Model of Python `sep.join(parts)` on character lists. -/
def joinWith (sep : List Char) : List (List Char) → List Char
  | [] => []
  | [l] => l
  | l :: l' :: ls => l ++ sep ++ joinWith sep (l' :: ls)

theorem joinWith_nil (sep : List Char) : joinWith sep [] = [] := rfl

theorem joinWith_singleton (sep l : List Char) : joinWith sep [l] = l := rfl

theorem joinWith_cons_cons (sep l l' : List Char) (ls : List (List Char)) :
    joinWith sep (l :: l' :: ls) = l ++ sep ++ joinWith sep (l' :: ls) := rfl

/-- A character list contains no two consecutive newline characters
(no internal blank line). -/
def noDoubleNl : List Char → Bool
  | [] => true
  | [_] => true
  | c :: d :: rest => !(c = '\n' && d = '\n') && noDoubleNl (d :: rest)

/-- Recognizer for comment lines of `_translate_code_block`:
`line.strip().startswith('#') or line.strip().startswith('//')`. -/
def isCommentLine (line : List Char) : Bool :=
  List.isPrefixOf ['#'] (pyStripL line) || List.isPrefixOf ['/', '/'] (pyStripL line)

/-- Per-line behaviour of `SmartTranslator._translate_code_block`: a comment
line is sent to the translation chain in stripped form and re-indented with
`' ' * (len(line) - len(line.lstrip()))`; on an exception the original line is
kept; a non-comment line passes through unchanged. -/
def translateCodeLine (tc : String → Except Unit String) (line : List Char) : List Char :=
  if isCommentLine line then
    match tc (String.mk (pyStripL line)) with
    | .ok comment_translation =>
        List.replicate (line.length - (line.dropWhile pyIsSpace).length) ' '
          ++ comment_translation.data
    | .error _ => line
  else line

/-- Embedding of `SmartTranslator._translate_code_block`
(src/translate/src/translator.py lines 123-145): split on newlines, translate
comment lines, join with newlines. -/
def _translate_code_block (tc : String → Except Unit String) (code_content : String) : String :=
  String.mk (joinWith ['\n'] ((splitNl code_content.data).map (translateCodeLine tc)))

/-- Embedding of `SmartTranslator._merge_translated_chunks`
(src/translate/src/translator.py lines 206-211):
`'\n\n'.join(chunk.strip() for chunk in translated_chunks if chunk.strip())`. -/
def _merge_translated_chunks (translated_chunks : List String) : String :=
  String.mk (joinWith ['\n', '\n']
    (translated_chunks.filterMap fun chunk =>
      if pyStripL chunk.data = [] then none else some (pyStripL chunk.data)))

/-! Basic lemmas about the string primitives. -/

theorem dropWhile_head_false (p : Char → Bool) :
    ∀ (l : List Char) (c : Char) (t : List Char), l.dropWhile p = c :: t → p c = false := by
  intro l
  induction l with
  | nil => intro c t h; simp [List.dropWhile] at h
  | cons a l ih =>
    intro c t h
    by_cases ha : p a
    · rw [List.dropWhile_cons, if_pos ha] at h
      exact ih c t h
    · rw [List.dropWhile_cons, if_neg ha] at h
      cases h
      simpa using ha

theorem pyStripL_getLast_not_space (l : List Char) (c : Char)
    (h : (pyStripL l).getLast? = some c) : pyIsSpace c = false := by
  unfold pyStripL at h
  rw [List.getLast?_reverse] at h
  rcases hd : ((l.dropWhile pyIsSpace).reverse).dropWhile pyIsSpace with _ | ⟨a, t⟩
  · rw [hd] at h; simp at h
  · rw [hd] at h
    simp at h
    subst h
    exact dropWhile_head_false pyIsSpace _ _ _ hd

theorem pyStripL_getLast_not_nl (l : List Char) : (pyStripL l).getLast? ≠ some '\n' := by
  intro h
  have := pyStripL_getLast_not_space l '\n' h
  simp [pyIsSpace] at this

theorem length_sub_dropWhile (p : Char → Bool) (l : List Char) :
    l.length - (l.dropWhile p).length = (l.takeWhile p).length := by
  have h := congrArg List.length (List.takeWhile_append_dropWhile (p := p) (l := l))
  rw [List.length_append] at h
  omega

/-! Lemmas relating `splitNl`, `splitBlank` and `joinWith`. -/

theorem splitNlAux_no_nl : ∀ l : List Char, '\n' ∉ l → splitNlAux l = (l, []) := by
  intro l
  induction l with
  | nil => intro _; rfl
  | cons c rest ih =>
    intro h
    have hc : ¬(c = '\n') := fun hc => h (hc ▸ List.mem_cons_self c rest)
    have hr : '\n' ∉ rest := fun hr => h (List.mem_cons_of_mem c hr)
    simp [splitNlAux, hc, ih hr]

theorem splitNlAux_append (t : List Char) :
    ∀ l : List Char, '\n' ∉ l →
      splitNlAux (l ++ '\n' :: t) = (l, (splitNlAux t).1 :: (splitNlAux t).2) := by
  intro l
  induction l with
  | nil => intro _; simp [splitNlAux]
  | cons c rest ih =>
    intro h
    have hc : ¬(c = '\n') := fun hc => h (hc ▸ List.mem_cons_self c rest)
    have hr : '\n' ∉ rest := fun hr => h (List.mem_cons_of_mem c hr)
    simp [splitNlAux, hc, ih hr]

theorem splitNl_joinWith : ∀ ls : List (List Char), ls ≠ [] →
    (∀ l ∈ ls, '\n' ∉ l) → splitNl (joinWith ['\n'] ls) = ls
  | [], h, _ => absurd rfl h
  | [l], _, hall => by
      have h := splitNlAux_no_nl l (hall l (by simp))
      simp [joinWith_singleton, splitNl, h]
  | l :: l' :: ls, _, hall => by
      have IH := splitNl_joinWith (l' :: ls) (by simp)
        (fun x hx => hall x (List.mem_cons_of_mem l hx))
      rw [joinWith_cons_cons]
      have : l ++ ['\n'] ++ joinWith ['\n'] (l' :: ls)
          = l ++ '\n' :: joinWith ['\n'] (l' :: ls) := by simp
      rw [this]
      unfold splitNl
      rw [splitNlAux_append (joinWith ['\n'] (l' :: ls)) l (hall l (by simp))]
      unfold splitNl at IH
      rw [IH]

theorem mem_splitNlAux_no_nl : ∀ x : List Char,
    '\n' ∉ (splitNlAux x).1 ∧ ∀ l ∈ (splitNlAux x).2, '\n' ∉ l := by
  intro x
  induction x with
  | nil => simp [splitNlAux]
  | cons c rest ih =>
    by_cases hc : c = '\n'
    · subst hc
      simp only [splitNlAux, if_pos rfl]
      refine ⟨by simp, ?_⟩
      intro l hl
      rcases List.mem_cons.1 hl with h | h
      · exact h ▸ ih.1
      · exact ih.2 l h
    · simp only [splitNlAux, if_neg hc]
      refine ⟨?_, ih.2⟩
      intro hmem
      rcases List.mem_cons.1 hmem with h | h
      · exact hc h.symm
      · exact ih.1 h

theorem mem_splitNl_no_nl (x : List Char) : ∀ l ∈ splitNl x, '\n' ∉ l := by
  intro l hl
  rcases List.mem_cons.1 hl with h | h
  · exact h ▸ (mem_splitNlAux_no_nl x).1
  · exact (mem_splitNlAux_no_nl x).2 l h

theorem joinWith_splitNl : ∀ l : List Char, joinWith ['\n'] (splitNl l) = l := by
  intro l
  induction l with
  | nil => simp [splitNl, splitNlAux, joinWith]
  | cons c rest ih =>
    unfold splitNl at ih
    by_cases hc : c = '\n'
    · subst hc
      have hsplit : splitNl ('\n' :: rest)
          = [] :: (splitNlAux rest).1 :: (splitNlAux rest).2 := by
        simp [splitNl, splitNlAux]
      rw [hsplit, joinWith_cons_cons]
      simpa using congrArg (fun x => '\n' :: x) ih
    · have hsplit : splitNl (c :: rest)
          = (c :: (splitNlAux rest).1) :: (splitNlAux rest).2 := by
        simp [splitNl, splitNlAux, hc]
      rw [hsplit]
      rcases h2 : (splitNlAux rest).2 with _ | ⟨a, as⟩
      · rw [h2, joinWith_singleton] at ih
        exact congrArg (c :: ·) ih
      · rw [h2, joinWith_cons_cons] at ih
        show (c :: (splitNlAux rest).1) ++ ['\n'] ++ joinWith ['\n'] (a :: as) = c :: rest
        simp only [List.cons_append, List.singleton_append, List.append_assoc] at ih ⊢
        exact congrArg (c :: ·) ih

theorem splitBlankAux_noDouble : ∀ l : List Char, noDoubleNl l → splitBlankAux l = (l, [])
  | [], _ => rfl
  | [_], _ => rfl
  | c :: d :: rest, h => by
      have h0 : (¬c = '\n' ∨ ¬d = '\n') ∧ noDoubleNl (d :: rest) := by
        simpa [noDoubleNl] using h
      have h' : ¬(c = '\n' ∧ d = '\n') ∧ noDoubleNl (d :: rest) :=
        ⟨fun hcd => h0.1.elim (fun hh => hh hcd.1) (fun hh => hh hcd.2), h0.2⟩
      have IH := splitBlankAux_noDouble (d :: rest) h'.2
      simp [splitBlankAux, h'.1, IH]

theorem splitBlankAux_append (t : List Char) :
    ∀ l : List Char, noDoubleNl l → l.getLast? ≠ some '\n' →
      splitBlankAux (l ++ '\n' :: '\n' :: t)
        = (l, (splitBlankAux t).1 :: (splitBlankAux t).2)
  | [], _, _ => by simp [splitBlankAux]
  | [c], _, hl => by
      have hc : ¬(c = '\n') := by simpa using hl
      simp [splitBlankAux, hc]
  | c :: d :: rest, h, hl => by
      have h0 : (¬c = '\n' ∨ ¬d = '\n') ∧ noDoubleNl (d :: rest) := by
        simpa [noDoubleNl] using h
      have h' : ¬(c = '\n' ∧ d = '\n') ∧ noDoubleNl (d :: rest) :=
        ⟨fun hcd => h0.1.elim (fun hh => hh hcd.1) (fun hh => hh hcd.2), h0.2⟩
      have hl' : (d :: rest).getLast? ≠ some '\n' := by
        rwa [List.getLast?_cons_cons] at hl
      have IH := splitBlankAux_append t (d :: rest) h'.2 hl'
      show splitBlankAux (c :: d :: (rest ++ '\n' :: '\n' :: t)) = _
      rw [splitBlankAux]
      rw [if_neg h'.1]
      show (c :: (splitBlankAux ((d :: rest) ++ '\n' :: '\n' :: t)).1,
        (splitBlankAux ((d :: rest) ++ '\n' :: '\n' :: t)).2) = _
      rw [IH]

theorem splitBlank_joinWith_blank : ∀ ls : List (List Char), ls ≠ [] →
    (∀ l ∈ ls, noDoubleNl l ∧ l.getLast? ≠ some '\n') →
    splitBlank (joinWith ['\n', '\n'] ls) = ls
  | [], h, _ => absurd rfl h
  | [l], _, hall => by
      have h := splitBlankAux_noDouble l (hall l (by simp)).1
      simp [joinWith_singleton, splitBlank, h]
  | l :: l' :: ls, _, hall => by
      have IH := splitBlank_joinWith_blank (l' :: ls) (by simp)
        (fun x hx => hall x (List.mem_cons_of_mem l hx))
      rw [joinWith_cons_cons]
      have hsep : l ++ ['\n', '\n'] ++ joinWith ['\n', '\n'] (l' :: ls)
          = l ++ '\n' :: '\n' :: joinWith ['\n', '\n'] (l' :: ls) := by simp
      rw [hsep]
      unfold splitBlank
      rw [splitBlankAux_append (joinWith ['\n', '\n'] (l' :: ls)) l
        (hall l (by simp)).1 (hall l (by simp)).2]
      unfold splitBlank at IH
      rw [IH]

theorem merge_filterMap_eq_map (cs : List String)
    (h : ∀ c ∈ cs, pyStripL c.data ≠ []) :
    (cs.filterMap fun chunk =>
        if pyStripL chunk.data = [] then none else some (pyStripL chunk.data))
      = cs.map fun c => pyStripL c.data := by
  induction cs with
  | nil => rfl
  | cons c cs ih =>
    rw [List.filterMap_cons, List.map_cons]
    rw [if_neg (h c (List.mem_cons_self c cs))]
    rw [ih (fun x hx => h x (List.mem_cons_of_mem c hx))]

/-! Claim C2: the merge step. -/

/-- Claim C2 counterexample: on the chunk list `["a", "", "b"]` the merge
step `_merge_translated_chunks` does not produce one blank-line-separated
unit per input chunk — the empty chunk is dropped, leaving two units for
three chunks. -/
theorem c2_counterexample :
    ¬ ((splitBlank ((_merge_translated_chunks ["a", "", "b"]).data)).length
        = (["a", "", "b"] : List String).length) := by
  decide

/-- Claim C2 (amended): for every non-empty list of translated chunk strings
in which every chunk is non-whitespace after stripping and no stripped chunk
contains an internal blank line, the merge step produces exactly one
blank-line-separated unit per input chunk — the stripped chunk — in the
original order; chunks that strip to the empty string are dropped. -/
theorem c2_merge_units : ∀ cs : List String, cs ≠ [] →
    (∀ c ∈ cs, pyStripL c.data ≠ [] ∧ noDoubleNl (pyStripL c.data)) →
    splitBlank ((_merge_translated_chunks cs).data)
      = cs.map fun c => pyStripL c.data := by
  intro cs hne hall
  unfold _merge_translated_chunks
  show splitBlank (joinWith ['\n', '\n'] _) = _
  rw [merge_filterMap_eq_map cs (fun c hc => (hall c hc).1)]
  apply splitBlank_joinWith_blank
  · simpa using hne
  · intro l hl
    obtain ⟨c, hc, rfl⟩ := List.mem_map.1 hl
    exact ⟨(hall c hc).2, pyStripL_getLast_not_nl c.data⟩

/-- Witness for `c2_merge_units` at a concrete chunk list. -/
theorem c2_merge_units_witness :
    splitBlank ((_merge_translated_chunks ["hello", "wo rld"]).data)
      = (["hello", "wo rld"] : List String).map (fun c => pyStripL c.data) :=
  c2_merge_units ["hello", "wo rld"] (by decide) (by decide)

/-! Claims C3, C4, C9: code-block translation. -/

/-- Code-block translation as claim C3 states it: the original indentation
of a translated comment line — its leading whitespace run, tabs included —
is preserved exactly in front of the translation. -/
def codeBlockKeepIndent (tc : String → Except Unit String) (code_content : String) : String :=
  String.mk (joinWith ['\n'] ((splitNl code_content.data).map fun line =>
    if isCommentLine line then
      match tc (String.mk (pyStripL line)) with
      | .ok comment_translation => line.takeWhile pyIsSpace ++ comment_translation.data
      | .error _ => line
    else line))

theorem mem_map_translateCodeLine_no_nl (tc : String → Except Unit String)
    (hnl : ∀ s t, tc s = .ok t → '\n' ∉ t.data) (content : String) :
    ∀ l ∈ (splitNl content.data).map (translateCodeLine tc), '\n' ∉ l := by
  intro l hl
  obtain ⟨line, hline, rfl⟩ := List.mem_map.1 hl
  unfold translateCodeLine
  by_cases hcl : isCommentLine line
  · rw [if_pos hcl]
    rcases htc : tc (String.mk (pyStripL line)) with _ | t
    · exact mem_splitNl_no_nl _ _ hline
    · intro hmem
      rcases List.mem_append.1 hmem with h | h
      · have := List.eq_of_mem_replicate h
        simp at this
      · exact hnl _ t htc h
  · rw [if_neg hcl]
    exact mem_splitNl_no_nl _ _ hline

/-- The lines of the output of `_translate_code_block` are exactly the
per-line translations of the lines of the input, provided translated
comments contain no newline. -/
theorem code_block_lines (tc : String → Except Unit String) (content : String)
    (hnl : ∀ s t, tc s = .ok t → '\n' ∉ t.data) :
    splitNl ((_translate_code_block tc content).data)
      = (splitNl content.data).map (translateCodeLine tc) := by
  unfold _translate_code_block
  show splitNl (joinWith ['\n'] _) = _
  apply splitNl_joinWith
  · simp [splitNl]
  · exact mem_map_translateCodeLine_no_nl tc hnl content

/-- Claim C3 counterexample: a comment line indented with a tab. The code
re-indents the translated comment with `' ' * (len(line) - len(line.lstrip()))`,
so the tab becomes a single space instead of being preserved exactly. -/
theorem c3_counterexample :
    _translate_code_block (fun _ => Except.ok "X") "\t# c"
        ≠ codeBlockKeepIndent (fun _ => Except.ok "X") "\t# c"
      ∧ _translate_code_block (fun _ => Except.ok "X") "\t# c" = " X"
      ∧ codeBlockKeepIndent (fun _ => Except.ok "X") "\t# c" = "\tX" := by
  refine ⟨by decide, by decide, by decide⟩

/-- Claim C3 (amended): code chunks are translated line by line — splitting
the output on newlines recovers exactly one line per input line, where the
lines whose stripped form starts with `#` or `//` carry the model translation
of the stripped line behind a run of spaces of the same length as the
original leading-whitespace run (identical to the original indentation
whenever it consists of spaces only), and every other line passes through
unchanged; provided translated comments contain no newline. -/
theorem c3_code_chunk_line_by_line : ∀ (tc : String → Except Unit String) (content : String),
    (∀ s t, tc s = .ok t → '\n' ∉ t.data) →
    splitNl ((_translate_code_block tc content).data)
      = (splitNl content.data).map (fun line =>
          if isCommentLine line then
            match tc (String.mk (pyStripL line)) with
            | .ok comment_translation =>
                List.replicate (line.takeWhile pyIsSpace).length ' '
                  ++ comment_translation.data
            | .error _ => line
          else line) := by
  intro tc content hnl
  rw [code_block_lines tc content hnl]
  apply List.map_congr_left
  intro line _
  unfold translateCodeLine
  rw [length_sub_dropWhile]

/-- Witness for `c3_code_chunk_line_by_line` at a concrete code chunk. -/
theorem c3_code_chunk_line_by_line_witness :
    splitNl ((_translate_code_block (fun _ => Except.ok "T") "  # hi\nx = 1").data)
      = (splitNl ("  # hi\nx = 1" : String).data).map (fun line =>
          if isCommentLine line then
            match (fun (_ : String) => Except.ok (ε := Unit) "T") (String.mk (pyStripL line)) with
            | .ok comment_translation =>
                List.replicate (line.takeWhile pyIsSpace).length ' '
                  ++ comment_translation.data
            | .error _ => line
          else line) :=
  c3_code_chunk_line_by_line (fun _ => Except.ok "T") "  # hi\nx = 1"
    (fun s t h => by cases h; decide)

/-- Claim C4: a code block with no comment line (no line whose stripped form
starts with `#` or `//`) is returned byte-identical by
`_translate_code_block`. -/
theorem c4_no_comment_identity : ∀ (tc : String → Except Unit String) (content : String),
    (∀ l ∈ splitNl content.data, isCommentLine l = false) →
    _translate_code_block tc content = content := by
  intro tc content h
  unfold _translate_code_block
  have hone : ∀ l ∈ splitNl content.data, translateCodeLine tc l = id l := by
    intro l hl
    unfold translateCodeLine
    rw [if_neg (by simp [h l hl])]
    rfl
  have hmap : (splitNl content.data).map (translateCodeLine tc) = splitNl content.data := by
    rw [List.map_congr_left hone, List.map_id]
  rw [hmap, joinWith_splitNl]

/-- Witness for `c4_no_comment_identity` at a concrete comment-free code
chunk. -/
theorem c4_no_comment_identity_witness :
    _translate_code_block (fun _ => Except.ok "Z") "x = 1\ny = 2" = "x = 1\ny = 2" :=
  c4_no_comment_identity (fun _ => Except.ok "Z") "x = 1\ny = 2" (by decide)

/-- Claim C9: inside code-block translation a failing model call for one
comment line is contained per line — that line is kept verbatim in the
output, and all lines are still present (translation of the rest of the
block continues). -/
theorem c9_line_failure_contained : ∀ (tc : String → Except Unit String)
    (content : String) (i : Nat) (line : List Char),
    (∀ s t, tc s = .ok t → '\n' ∉ t.data) →
    (splitNl content.data)[i]? = some line →
    isCommentLine line = true →
    tc (String.mk (pyStripL line)) = .error () →
    (splitNl ((_translate_code_block tc content).data))[i]? = some line
      ∧ (splitNl ((_translate_code_block tc content).data)).length
          = (splitNl content.data).length := by
  intro tc content i line hnl hi hcl herr
  rw [code_block_lines tc content hnl]
  constructor
  · rw [List.getElem?_map, hi]
    simp [translateCodeLine, hcl, herr]
  · rw [List.length_map]

/-- Witness for `c9_line_failure_contained` on a block whose comment line
fails to translate. -/
theorem c9_line_failure_contained_witness :
    (splitNl ((_translate_code_block (fun _ => Except.error ()) "# a\nx = 1").data))[0]?
        = some ("# a" : String).data
      ∧ (splitNl ((_translate_code_block (fun _ => Except.error ()) "# a\nx = 1").data)).length
          = (splitNl ("# a\nx = 1" : String).data).length :=
  c9_line_failure_contained (fun _ => Except.error ()) "# a\nx = 1" 0 ("# a" : String).data
    (fun _ _ h => nomatch h) (by decide) (by decide) rfl

/-! The translation orchestrator (`SmartTranslator.translate_content`). -/

/-- The fields of `TextChunk` (from `text_chunker.py`, not under `src/`)
that `translator.py` reads: `content` and `chunk_type`. -/
structure TextChunk where
  content : String
  chunk_type : String
deriving DecidableEq, Repr

/-- The comparison record produced by `SummaryGenerator.compare_summaries`,
as read by `translate_content`: `completeness_score` and `missing_content`
(plus `suggestions`, carried but not read here). -/
structure ComparisonResult where
  completeness_score : Int
  missing_content : String
  suggestions : String
deriving DecidableEq, Repr

/-- The `stats` dict returned by `translate_content`
(src/translate/src/translator.py lines 196-202). -/
structure Stats where
  original_summary : String
  translated_summary : String
  comparison_result : ComparisonResult
  chunk_count : Nat
  completeness_score : Int
deriving DecidableEq, Repr

/-- Modelled from the spec: the external collaborators of the orchestrator
(`MarkdownChunker.chunk_text`, `SummaryGenerator.generate_original_summary`,
`generate_translated_summary`, `compare_summaries`, and the two LLM chains),
whose implementations live outside `src/`. Each LLM chain may raise, which is
modelled by `Except Unit`; the summary generator and comparator never raise
(per the spec they degrade internally), so they are total functions. -/
structure Env where
  generate_original_summary : String → String
  generate_translated_summary : String → String
  compare_summaries : String → String → ComparisonResult
  chunk_text : String → List TextChunk
  translation_chain : String → Except Unit String
  retranslation_chain : String → String → Except Unit String

/-- Orchestrator-level model calls, recorded in execution order by the
embedding of `translate_content` so that call counts can be stated. -/
inductive OrchCall where
  | origSummary (content : String)
  | transSummary (content : String)
  | compare (a b : String)
  | retranslate (original missing : String)
deriving DecidableEq, Repr

/-- True exactly on `retranslate` calls. -/
def OrchCall.isRetranslate : OrchCall → Bool
  | .retranslate _ _ => true
  | _ => false

/-- True exactly on `transSummary` calls. -/
def OrchCall.isTransSummary : OrchCall → Bool
  | .transSummary _ => true
  | _ => false

/-- True exactly on `compare` calls. -/
def OrchCall.isCompare : OrchCall → Bool
  | .compare _ _ => true
  | _ => false

/-- Embedding of `SmartTranslator.translate_chunk`
(src/translate/src/translator.py lines 104-121): code chunks go through
`_translate_code_block`; other chunks through the translation chain; a raised
exception is caught and replaced by the failure marker
`f"翻译失败: {chunk.content}"`. -/
def translate_chunk (tc : String → Except Unit String) (chunk : TextChunk) : String :=
  if chunk.chunk_type = "code" then
    _translate_code_block tc chunk.content
  else
    match tc chunk.content with
    | .ok translation => translation
    | .error _ => "翻译失败: " ++ chunk.content

/-- The `translated_chunks` list built by the loop in `translate_content`
(lines 160-165): one `translate_chunk` result per chunk, in order. -/
def translated_chunks_of (env : Env) (content : String) : List String :=
  (env.chunk_text content).map (translate_chunk env.translation_chain)

/-- The merged translation (line 167). -/
def merged_translation (env : Env) (content : String) : String :=
  _merge_translated_chunks (translated_chunks_of env content)

/-- The original-document summary (line 154). -/
def original_summary_of (env : Env) (content : String) : String :=
  env.generate_original_summary content

/-- The first translated-document summary (line 170). -/
def pre_translated_summary (env : Env) (content : String) : String :=
  env.generate_translated_summary (merged_translation env content)

/-- The first comparison result (lines 173-175), which decides the
focused-retranslation branch. -/
def pre_comparison (env : Env) (content : String) : ComparisonResult :=
  env.compare_summaries (original_summary_of env content)
    (pre_translated_summary env content)

/-- Embedding of `SmartTranslator._retranslate_with_focus` (lines 213-225):
one retranslation-chain call; an exception is caught and turned into `None`.
The second component records the call that was made. -/
def _retranslate_with_focus (env : Env) (original_content missing_content : String) :
    Option String × List OrchCall :=
  match env.retranslation_chain original_content missing_content with
  | .ok retranslated => (some retranslated, [.retranslate original_content missing_content])
  | .error _ => (none, [.retranslate original_content missing_content])

/-- Embedding of `SmartTranslator.translate_content` (lines 147-204).
Returns the translated content, the `stats` record, and the list of
orchestrator-level model calls in execution order. The branch guard is
`completeness_score < 8 and missing_content != "无"`; the guard on the
retranslation result is Python truthiness (`if retranslated_content:`), so
`None` and the empty string both keep the merged translation. -/
def translate_content (env : Env) (content : String) : String × Stats × List OrchCall :=
  let original_summary := original_summary_of env content
  let chunks := env.chunk_text content
  let translated_content := merged_translation env content
  let translated_summary := pre_translated_summary env content
  let comparison_result := pre_comparison env content
  let baseLog := [OrchCall.origSummary content,
    OrchCall.transSummary translated_content,
    OrchCall.compare original_summary translated_summary]
  if comparison_result.completeness_score < 8 ∧ comparison_result.missing_content ≠ "无" then
    let r := _retranslate_with_focus env content comparison_result.missing_content
    match r.1 with
    | some retranslated_content =>
      if retranslated_content ≠ "" then
        let translated_summary2 := env.generate_translated_summary retranslated_content
        let comparison_result2 := env.compare_summaries original_summary translated_summary2
        (retranslated_content,
         ⟨original_summary, translated_summary2, comparison_result2,
          chunks.length, comparison_result2.completeness_score⟩,
         baseLog ++ r.2 ++ [OrchCall.transSummary retranslated_content,
           OrchCall.compare original_summary translated_summary2])
      else
        (translated_content,
         ⟨original_summary, translated_summary, comparison_result,
          chunks.length, comparison_result.completeness_score⟩,
         baseLog ++ r.2)
    | none =>
      (translated_content,
       ⟨original_summary, translated_summary, comparison_result,
        chunks.length, comparison_result.completeness_score⟩,
       baseLog ++ r.2)
  else
    (translated_content,
     ⟨original_summary, translated_summary, comparison_result,
      chunks.length, comparison_result.completeness_score⟩,
     baseLog)

/-- A concrete environment whose model calls all succeed: one chunk per
document, a visible transform per call, a comparison reporting score 3 with
missing content `"miss"`. -/
def envA : Env where
  generate_original_summary := fun c => "O:" ++ c
  generate_translated_summary := fun t => "S:" ++ t
  compare_summaries := fun _ _ => ⟨3, "miss", "sg"⟩
  chunk_text := fun c => [⟨c, "paragraph"⟩]
  translation_chain := fun s => .ok ("T" ++ s)
  retranslation_chain := fun o m => .ok ("R:" ++ o ++ "/" ++ m)

/-- Like `envA` but the retranslation chain raises. -/
def envB : Env :=
  { envA with retranslation_chain := fun _ _ => .error () }

/-- Like `envA` but the retranslation chain succeeds with the empty string. -/
def envC : Env :=
  { envA with retranslation_chain := fun _ _ => .ok "" }

/-- Like `envA` but the per-chunk translation chain raises. -/
def envD : Env :=
  { envA with translation_chain := fun _ => .error () }

/-! Claim C1: the focused-retranslation branch condition. -/

/-- Claim C1: the number of retranslation-chain calls made by
`translate_content` is 1 exactly when the first comparison has
`completeness_score < 8` and `missing_content ≠ "无"`, and 0 otherwise — in
particular it is never more than one, and the sentinel `"无"` suppresses
retranslation for every score. -/
theorem c1_focused_retranslation_iff : ∀ (env : Env) (content : String),
    (((translate_content env content).2.2).filter OrchCall.isRetranslate).length
        = (if (pre_comparison env content).completeness_score < 8
              ∧ (pre_comparison env content).missing_content ≠ "无" then 1 else 0)
      ∧ ((((translate_content env content).2.2).filter OrchCall.isRetranslate).length = 1
          ↔ ((pre_comparison env content).completeness_score < 8
              ∧ (pre_comparison env content).missing_content ≠ "无")) := by
  intro env content
  by_cases hcond : (pre_comparison env content).completeness_score < 8
      ∧ (pre_comparison env content).missing_content ≠ "无"
  · simp only [translate_content, _retranslate_with_focus]
    rw [if_pos hcond, if_pos hcond]
    rcases hr : env.retranslation_chain content (pre_comparison env content).missing_content
      with _ | s
    · simp [OrchCall.isRetranslate, hcond]
    · rcases eq_or_ne s "" with hs | hs
      · subst hs
        simp [OrchCall.isRetranslate, hcond]
      · simp [OrchCall.isRetranslate, hcond, hs]
  · simp only [translate_content, _retranslate_with_focus]
    rw [if_neg hcond, if_neg hcond]
    simp [OrchCall.isRetranslate, hcond]

/-! Claim C5: per-chunk failure containment. -/

/-- Claim C5: when the translation chain raises on a (non-code) chunk, the
chunk loop suffers no exception — the chunk's slot holds the failure marker
`"翻译失败: "` followed by the untranslated source, and the loop still
produces one translated entry per chunk. -/
theorem c5_chunk_failure_marker : ∀ (env : Env) (content : String) (i : Nat)
    (chunk : TextChunk),
    (env.chunk_text content)[i]? = some chunk →
    chunk.chunk_type ≠ "code" →
    env.translation_chain chunk.content = .error () →
    (translated_chunks_of env content).length = (env.chunk_text content).length
      ∧ (translated_chunks_of env content)[i]? = some ("翻译失败: " ++ chunk.content) := by
  intro env content i chunk hi hct herr
  unfold translated_chunks_of
  refine ⟨List.length_map _ _, ?_⟩
  rw [List.getElem?_map, hi]
  simp [translate_chunk, hct, herr]

/-- Witness for `c5_chunk_failure_marker`: in `envD` every chunk call raises
and the single chunk's translation is the failure marker. -/
theorem c5_chunk_failure_marker_witness :
    (translated_chunks_of envD "doc").length = (envD.chunk_text "doc").length
      ∧ (translated_chunks_of envD "doc")[0]?
          = some ("翻译失败: " ++ TextChunk.content ⟨"doc", "paragraph"⟩) :=
  c5_chunk_failure_marker envD "doc" 0 ⟨"doc", "paragraph"⟩ rfl (by decide) rfl

/-! Claim C6: failed focused retranslation is non-fatal. -/

/-- Claim C6: when the branch is entered and the retranslation chain raises,
`translate_content` keeps the merged translation, its stats keep the
pre-retranslation summary and comparison, and no second summary or
comparison call happens. -/
theorem c6_retranslation_failure_kept : ∀ (env : Env) (content : String),
    (pre_comparison env content).completeness_score < 8 →
    (pre_comparison env content).missing_content ≠ "无" →
    env.retranslation_chain content (pre_comparison env content).missing_content
        = .error () →
    (translate_content env content).1 = merged_translation env content
      ∧ (translate_content env content).2.1
          = ⟨original_summary_of env content, pre_translated_summary env content,
             pre_comparison env content, (env.chunk_text content).length,
             (pre_comparison env content).completeness_score⟩
      ∧ (((translate_content env content).2.2).filter OrchCall.isTransSummary).length = 1
      ∧ (((translate_content env content).2.2).filter OrchCall.isCompare).length = 1 := by
  intro env content h1 h2 herr
  simp only [translate_content, _retranslate_with_focus]
  rw [if_pos ⟨h1, h2⟩, herr]
  simp [OrchCall.isTransSummary, OrchCall.isCompare]

/-- Witness for `c6_retranslation_failure_kept` in `envB`. -/
theorem c6_retranslation_failure_kept_witness :
    (translate_content envB "doc").1 = merged_translation envB "doc"
      ∧ (translate_content envB "doc").2.1
          = ⟨original_summary_of envB "doc", pre_translated_summary envB "doc",
             pre_comparison envB "doc", (envB.chunk_text "doc").length,
             (pre_comparison envB "doc").completeness_score⟩
      ∧ (((translate_content envB "doc").2.2).filter OrchCall.isTransSummary).length = 1
      ∧ (((translate_content envB "doc").2.2).filter OrchCall.isCompare).length = 1 :=
  c6_retranslation_failure_kept envB "doc" (by decide) (by decide) rfl

/-! Claim C7: successful focused retranslation. -/

/-- Claim C7 counterexample: in `envC` the retranslation chain succeeds
(returns without raising) with the empty string, yet the merged translation
is kept, the translated summary is not recomputed from the retranslation
output, and only the initial summary call is made — because the code guards
on Python truthiness (`if retranslated_content:`), not on success. -/
theorem c7_counterexample :
    envC.retranslation_chain "doc" ((pre_comparison envC "doc").missing_content)
        = .ok ""
      ∧ (pre_comparison envC "doc").completeness_score < 8
      ∧ (pre_comparison envC "doc").missing_content ≠ "无"
      ∧ (translate_content envC "doc").1 = merged_translation envC "doc"
      ∧ (translate_content envC "doc").1 ≠ ""
      ∧ (translate_content envC "doc").2.1.translated_summary
          ≠ envC.generate_translated_summary ""
      ∧ (((translate_content envC "doc").2.2).filter OrchCall.isTransSummary).length = 1 := by
  refine ⟨rfl, by decide, by decide, by decide, by decide, by decide, by decide⟩

/-- Shared helper: what `translate_content` produces when the branch is
entered and the retranslation chain succeeds with a truthy result. -/
theorem retranslation_success_result (env : Env) (content s : String)
    (h1 : (pre_comparison env content).completeness_score < 8)
    (h2 : (pre_comparison env content).missing_content ≠ "无")
    (hok : env.retranslation_chain content (pre_comparison env content).missing_content
        = .ok s)
    (hs : s ≠ "") :
    (translate_content env content).1 = s
      ∧ (translate_content env content).2.1.translated_summary
          = env.generate_translated_summary s
      ∧ (translate_content env content).2.1.comparison_result
          = env.compare_summaries (original_summary_of env content)
              (env.generate_translated_summary s)
      ∧ (((translate_content env content).2.2).filter OrchCall.isRetranslate).length = 1
      ∧ (((translate_content env content).2.2).filter OrchCall.isTransSummary).length = 2
      ∧ (((translate_content env content).2.2).filter OrchCall.isCompare).length = 2 := by
  simp only [translate_content, _retranslate_with_focus]
  rw [if_pos ⟨h1, h2⟩, hok]
  simp [OrchCall.isRetranslate, OrchCall.isTransSummary, OrchCall.isCompare, hs]

/-- Claim C7 (amended): whenever the focused-retranslation call succeeds with
a non-empty (truthy) result, that result replaces the merged translation
wholesale, the translated summary and the comparison are recomputed from it
exactly once (a second summary call and a second comparison call), and no
further retranslation attempt is made. -/
theorem c7_retranslation_success_replaces : ∀ (env : Env) (content s : String),
    (pre_comparison env content).completeness_score < 8 →
    (pre_comparison env content).missing_content ≠ "无" →
    env.retranslation_chain content (pre_comparison env content).missing_content
        = .ok s →
    s ≠ "" →
    (translate_content env content).1 = s
      ∧ (translate_content env content).2.1.translated_summary
          = env.generate_translated_summary s
      ∧ (translate_content env content).2.1.comparison_result
          = env.compare_summaries (original_summary_of env content)
              (env.generate_translated_summary s)
      ∧ (((translate_content env content).2.2).filter OrchCall.isRetranslate).length = 1
      ∧ (((translate_content env content).2.2).filter OrchCall.isTransSummary).length = 2
      ∧ (((translate_content env content).2.2).filter OrchCall.isCompare).length = 2 :=
  fun env content s h1 h2 hok hs =>
    retranslation_success_result env content s h1 h2 hok hs

/-- Witness for `c7_retranslation_success_replaces` in `envA`. -/
theorem c7_retranslation_success_replaces_witness :
    (translate_content envA "doc").1 = "R:doc/miss"
      ∧ (translate_content envA "doc").2.1.translated_summary
          = envA.generate_translated_summary "R:doc/miss"
      ∧ (translate_content envA "doc").2.1.comparison_result
          = envA.compare_summaries (original_summary_of envA "doc")
              (envA.generate_translated_summary "R:doc/miss")
      ∧ (((translate_content envA "doc").2.2).filter OrchCall.isRetranslate).length = 1
      ∧ (((translate_content envA "doc").2.2).filter OrchCall.isTransSummary).length = 2
      ∧ (((translate_content envA "doc").2.2).filter OrchCall.isCompare).length = 2 :=
  c7_retranslation_success_replaces envA "doc" "R:doc/miss" (by decide) (by decide)
    rfl (by decide)

/-! Claim C8: internal consistency of the stats record. -/

/-- The stats record always carries the original summary, the chunk count of
the chunker output, and a comparison result whose score it repeats. -/
theorem translate_content_stats_shape (env : Env) (content : String) :
    ∃ ts cr, (translate_content env content).2.1
        = ⟨original_summary_of env content, ts, cr,
           (env.chunk_text content).length, cr.completeness_score⟩ := by
  simp only [translate_content, _retranslate_with_focus]
  by_cases hcond : (pre_comparison env content).completeness_score < 8
      ∧ (pre_comparison env content).missing_content ≠ "无"
  · rw [if_pos hcond]
    rcases hr : env.retranslation_chain content (pre_comparison env content).missing_content
      with _ | s
    · exact ⟨_, _, rfl⟩
    · rcases eq_or_ne s "" with hs | hs
      · subst hs
        simp only [if_neg (by simp : ¬("" : String) ≠ "")]
        exact ⟨_, _, rfl⟩
      · simp only [if_pos hs]
        exact ⟨_, _, rfl⟩
  · rw [if_neg hcond]
    exact ⟨_, _, rfl⟩

/-- Claim C8: the returned stats record is internally consistent — its
`completeness_score` equals the score inside its `comparison_result`, its
`chunk_count` is the number of chunks from the chunker, its
`original_summary` is the original summary, and when a (truthy) retranslation
replaced the translation, the stats carry the post-retranslation summary and
comparison. -/
theorem c8_stats_consistent : ∀ (env : Env) (content : String),
    (translate_content env content).2.1.completeness_score
        = (translate_content env content).2.1.comparison_result.completeness_score
      ∧ (translate_content env content).2.1.chunk_count
          = (env.chunk_text content).length
      ∧ (translate_content env content).2.1.original_summary
          = original_summary_of env content
      ∧ ∀ s : String,
          (pre_comparison env content).completeness_score < 8 →
          (pre_comparison env content).missing_content ≠ "无" →
          env.retranslation_chain content (pre_comparison env content).missing_content
              = .ok s →
          s ≠ "" →
          (translate_content env content).2.1.translated_summary
              = env.generate_translated_summary s
            ∧ (translate_content env content).2.1.comparison_result
                = env.compare_summaries (original_summary_of env content)
                    (env.generate_translated_summary s) := by
  intro env content
  obtain ⟨ts, cr, hshape⟩ := translate_content_stats_shape env content
  refine ⟨by rw [hshape], by rw [hshape], by rw [hshape], ?_⟩
  intro s h1 h2 hok hs
  have h := retranslation_success_result env content s h1 h2 hok hs
  exact ⟨h.2.1, h.2.2.1⟩

/-- Witness for `c8_stats_consistent` in `envA`, where the retranslation
branch is taken and succeeds. -/
theorem c8_stats_consistent_witness :
    (translate_content envA "doc").2.1.completeness_score
        = (translate_content envA "doc").2.1.comparison_result.completeness_score
      ∧ (translate_content envA "doc").2.1.chunk_count
          = (envA.chunk_text "doc").length
      ∧ (translate_content envA "doc").2.1.original_summary
          = original_summary_of envA "doc"
      ∧ ((translate_content envA "doc").2.1.translated_summary
            = envA.generate_translated_summary "R:doc/miss"
          ∧ (translate_content envA "doc").2.1.comparison_result
            = envA.compare_summaries (original_summary_of envA "doc")
                (envA.generate_translated_summary "R:doc/miss")) :=
  have h := c8_stats_consistent envA "doc"
  ⟨h.1, h.2.1, h.2.2.1, h.2.2.2 "R:doc/miss" (by decide) (by decide) rfl (by decide)⟩

/-! Claim C10: `ConfigManager.get_openai_config`
(src/translate/src/config_manager.py lines 37-57). -/

/-- The configuration state `get_openai_config` reads: whether the loaded
config file has an `[openai]` section, the raw `api_key` and `base_url`
options of that section (`none` when the option is absent, matching
`fallback=None`), and the `OPENAI_API_KEY` / `OPENAI_BASE_URL` environment
variables (`none` when unset, matching `os.getenv`). -/
structure ConfigData where
  has_openai_section : Bool
  file_api_key : Option String
  file_base_url : Option String
  env_openai_api_key : Option String
  env_openai_base_url : Option String
deriving DecidableEq, Repr

/-- Python truthiness of an optional string: `None` and `""` are falsy. -/
def pyTruthy : Option String → Bool
  | none => false
  | some s => s ≠ ""

/-- Embedding of `ConfigManager.get_openai_config`: the two-step fill-in of
`config['api_key']` and `config['base_url']` from the argument, the config
file and the environment, including the placeholder check on the file
`api_key` and the `fallback='https://api.openai.com/v1'` on the file
`base_url`. -/
def get_openai_config (cm : ConfigData) (api_key base_url : Option String) :
    Option String × Option String :=
  let ak0 := api_key
  let bu0 := base_url
  let ak1 :=
    if !pyTruthy api_key && cm.has_openai_section then
      if cm.file_api_key = some "your_openai_api_key_here" then none else cm.file_api_key
    else ak0
  let bu1 :=
    if !pyTruthy base_url && cm.has_openai_section then
      match cm.file_base_url with
      | some v => some v
      | none => some "https://api.openai.com/v1"
    else bu0
  let ak2 := if !pyTruthy ak1 then cm.env_openai_api_key else ak1
  let bu2 :=
    if !pyTruthy bu1 then
      match cm.env_openai_base_url with
      | some v => some v
      | none => some "https://api.openai.com/v1"
    else bu1
  (ak2, bu2)

/-- The base_url precedence as claim C10 states it: a non-empty argument
wins; otherwise the config-file value; otherwise the `OPENAI_BASE_URL`
environment variable; otherwise the default. -/
def base_url_claimed (cm : ConfigData) (base_url : Option String) : Option String :=
  if pyTruthy base_url then base_url
  else if cm.has_openai_section && pyTruthy cm.file_base_url then cm.file_base_url
  else if pyTruthy cm.env_openai_base_url then cm.env_openai_base_url
  else some "https://api.openai.com/v1"

/-- Claim C10 counterexample: with an `[openai]` section that has an
`api_key` but no `base_url` option, and `OPENAI_BASE_URL` set, the code
returns the default immediately and never consults the environment variable,
against the claimed precedence. -/
theorem c10_counterexample :
    (get_openai_config ⟨true, some "sk-file", none, none, some "http://proxy"⟩ none none).2
        = some "https://api.openai.com/v1"
      ∧ base_url_claimed ⟨true, some "sk-file", none, none, some "http://proxy"⟩ none
          = some "http://proxy"
      ∧ (get_openai_config ⟨true, some "sk-file", none, none, some "http://proxy"⟩ none none).2
          ≠ base_url_claimed ⟨true, some "sk-file", none, none, some "http://proxy"⟩ none := by
  refine ⟨rfl, rfl, by decide⟩

/-- Claim C10 (amended): the api_key precedence is as claimed (a truthy
argument wins; otherwise the file value with the placeholder — and an empty
value — treated as absent; otherwise the environment variable), while for
base_url a truthy argument wins and otherwise, when the `[openai]` section
exists, the file value is used with an absent option resolving immediately
to the default (the environment variable is not consulted) and an empty
value falling through to `OPENAI_BASE_URL`-or-default; without the section,
`OPENAI_BASE_URL`-or-default. -/
theorem c10_openai_config_precedence : ∀ (cm : ConfigData) (akArg buArg : Option String),
    (get_openai_config cm akArg buArg).1
        = (if pyTruthy akArg then akArg
           else if cm.has_openai_section
               && pyTruthy (if cm.file_api_key = some "your_openai_api_key_here"
                              then none else cm.file_api_key) then
             (if cm.file_api_key = some "your_openai_api_key_here"
                then none else cm.file_api_key)
           else cm.env_openai_api_key)
      ∧ (get_openai_config cm akArg buArg).2
        = (if pyTruthy buArg then buArg
           else if cm.has_openai_section then
             match cm.file_base_url with
             | some v =>
               if v = "" then
                 match cm.env_openai_base_url with
                 | some w => some w
                 | none => some "https://api.openai.com/v1"
               else some v
             | none => some "https://api.openai.com/v1"
           else
             match cm.env_openai_base_url with
             | some w => some w
             | none => some "https://api.openai.com/v1") := by
  intro cm akArg buArg
  constructor
  · simp only [get_openai_config]
    cases hak : pyTruthy akArg with
    | true => simp [hak]
    | false =>
      cases hsec : cm.has_openai_section with
      | false => simp [hak, hsec]
      | true =>
        cases hadj : pyTruthy (if cm.file_api_key = some "your_openai_api_key_here"
            then none else cm.file_api_key) with
        | true => simp [hak, hsec, hadj]
        | false => simp [hak, hsec, hadj]
  · simp only [get_openai_config]
    cases hbu : pyTruthy buArg with
    | true => simp [hbu]
    | false =>
      cases hsec : cm.has_openai_section with
      | false => simp [hbu, hsec]
      | true =>
        rcases hfile : cm.file_base_url with _ | v
        · have hdef : pyTruthy (some "https://api.openai.com/v1") = true := rfl
          simp [hbu, hsec, hfile, hdef]
        · by_cases hv : v = ""
          · subst hv
            have hemp : pyTruthy (some "") = false := rfl
            simp [hbu, hsec, hfile, hemp]
          · have hver : pyTruthy (some v) = true := by simp [pyTruthy, hv]
            simp [hbu, hsec, hfile, hver, hv]

end Translator
